import Mathlib

/-!
# Verification of the Pyoneer3 `graphics` module

A shallow embedding in Lean 4 of the scene-graph layer in
`src/pyoneer3/graphics.py`, together with theorems settling the claims of
the natural-language specification.

Conventions used throughout:
* pygame surfaces are modelled by their pixel dimensions (`Surf`);
* Python floats are modelled exactly by rationals (`ℚ`);
* Python's `int(x)` conversion (truncation toward zero) is `pytrunc`;
* operations that can raise are modelled with `Option`/`Except`;
* Python's truthiness tests are modelled explicitly (`PyVal.truthy`, …).
-/

/-- A pygame surface, modelled by its pixel dimensions
(`get_width()` / `get_height()`). -/
structure Surf where
  width : ℕ
  height : ℕ
  deriving DecidableEq

/-- The `XYComplex` namedtuple: Roblox-UDim2-style relative position
`(xScale, xOffset, yScale, yOffset)`. -/
structure XYComplex where
  xScale : ℚ
  xOffset : ℚ
  yScale : ℚ
  yOffset : ℚ
  deriving DecidableEq

/-- Python `int(x)` applied to a float/rational: truncation toward zero. -/
def pytrunc (q : ℚ) : ℤ :=
  if 0 ≤ q then ⌊q⌋ else ⌈q⌉

/-- `to_simple(coord, surf)`: resolve a relative position against a reference
surface, `(coord[1] + surf.get_width() * coord[0],
coord[3] + surf.get_height() * coord[2])`. -/
def to_simple (coord : XYComplex) (surf : Surf) : ℚ × ℚ :=
  (coord.xOffset + (surf.width : ℚ) * coord.xScale,
   coord.yOffset + (surf.height : ℚ) * coord.yScale)

/-- `extract_offsets(coord)`: just the two pixel offsets. -/
def extract_offsets (coord : XYComplex) : ℚ × ℚ :=
  (coord.xOffset, coord.yOffset)

/-! ## Pixel-perfect collision utilities (`ppm_collide` / `ppm_detected`)

The mask-overlap test `Mask.overlap` is an external pygame capability; it is
taken as a parameter returning the first overlapping pixel or `none`. -/

/-- An object carrying a `rect` (its top-left corner suffices here) and a
`mask`, as consumed by `ppm_collide`. -/
structure MaskObj (M : Type) where
  topleft : ℤ × ℤ
  mask : M

/-- `ppm_collide(this, other)`: offset `other`'s rect relative to `this`,
query the external mask-overlap predicate, and translate a hit back into
absolute coordinates; `None` when there is no overlap.  (In Python the
result is `(...) if overlap else None`; the overlap value is a coordinate
pair, and a pair is always truthy.) -/
def ppm_collide {M : Type} (ov : M → M → ℤ × ℤ → Option (ℤ × ℤ))
    (this other : MaskObj M) : Option (ℤ × ℤ) :=
  let other_rel_x := other.topleft.1 - this.topleft.1
  let other_rel_y := other.topleft.2 - this.topleft.2
  match ov this.mask other.mask (other_rel_x, other_rel_y) with
  | some p => some (p.1 + this.topleft.1, p.2 + this.topleft.2)
  | none => none

/-- Python truthiness of an optional coordinate pair (`bool(collision)`):
`None` is falsy, a (nonempty) tuple is truthy. -/
def pybool_pair : Option (ℤ × ℤ) → Bool
  | none => false
  | some _ => true

/-- `ppm_detected(this, other)`: `bool(ppm_collide(this, other))`. -/
def ppm_detected {M : Type} (ov : M → M → ℤ × ℤ → Option (ℤ × ℤ))
    (this other : MaskObj M) : Bool :=
  pybool_pair (ppm_collide ov this other)

/-- C5: `ppm_detected(a, b)` is true exactly when `ppm_collide(a, b)` returns
a value, and it is false exactly when `ppm_collide(a, b)` is `None` (the
no-mask-overlap case, which includes non-overlapping rects). -/
theorem ppm_detected_iff_ppm_collide_isSome {M : Type}
    (ov : M → M → ℤ × ℤ → Option (ℤ × ℤ)) (a b : MaskObj M) :
    ppm_detected ov a b = (ppm_collide ov a b).isSome ∧
    (ppm_detected ov a b = false ↔ ppm_collide ov a b = none) := by
  unfold ppm_detected pybool_pair
  cases h : ppm_collide ov a b <;> simp

/-! ## `UIElement.calculate_absolute_position`

The code walks the parent chain of a `UIElement` while the current object is
still a `UIElement` (stopping at the first `Scene` ancestor), collecting
`to_simple(current.rel_pos, current.parent.surf)` at each step, and finally
returns `int`-truncated componentwise sums.  We embed the ancestor chain of
the element as a list of links (head = the element itself, each link's
parent being the next link, the last link's parent being the Scene). -/

/-- One `UIElement` on an ancestor chain: its relative position and its own
(optional) surface.  `surf = none` models a Python `None` surface. -/
structure ChainLink where
  rel_pos : XYComplex
  surf : Option Surf
  deriving DecidableEq

/-- The surface of the parent of the first link: the next link's surface if
there is one, else the Scene's surface.  Accessing a `none` surface makes the
Python code raise (`None.get_width()`), hence the `Option` result. -/
def parent_surf (rest : List ChainLink) (scene_surf : Surf) : Option Surf :=
  match rest with
  | [] => some scene_surf
  | l :: _ => l.surf

/-- The `position_chain` list built by the loop in
`calculate_absolute_position`: each link's `rel_pos` resolved via `to_simple`
against its own parent's surface; `none` if some parent surface is missing
(the Python code would raise an `AttributeError` there). -/
def position_chain (links : List ChainLink) (scene_surf : Surf) :
    Option (List (ℚ × ℚ)) :=
  match links with
  | [] => some []
  | l :: rest =>
    match parent_surf rest scene_surf with
    | none => none
    | some s =>
      (position_chain rest scene_surf).map (fun ch => to_simple l.rel_pos s :: ch)

/-- `calculate_absolute_position`: unzip the position chain into x and y
components and return the `int`-truncated sums. -/
def calculate_absolute_position (links : List ChainLink) (scene_surf : Surf) :
    Option (ℤ × ℤ) :=
  (position_chain links scene_surf).map
    (fun ch => (pytrunc (ch.map Prod.fst).sum, pytrunc (ch.map Prod.snd).sum))

/-- The resolved position chain as the specification words it: each node's
`relativePosition` resolved against its own parent's surface size (the
Scene's surface for the topmost `UIElement`).  Total function; the default
surface is only reached when an ancestor surface is missing. -/
def resolved_chain (links : List ChainLink) (scene_surf : Surf) : List (ℚ × ℚ) :=
  match links with
  | [] => []
  | l :: rest =>
    to_simple l.rel_pos ((parent_surf rest scene_surf).getD ⟨0, 0⟩) ::
      resolved_chain rest scene_surf

lemma position_chain_eq_resolved (links : List ChainLink) (scene_surf : Surf)
    (h : ∀ l ∈ links.drop 1, l.surf.isSome) :
    position_chain links scene_surf = some (resolved_chain links scene_surf) := by
  induction links with
  | nil => rfl
  | cons l rest ih =>
    have hrest : ∀ l' ∈ rest.drop 1, l'.surf.isSome := by
      intro l' hl'
      exact h l' (List.mem_of_mem_drop hl')
    have hps : (parent_surf rest scene_surf).isSome := by
      cases rest with
      | nil => rfl
      | cons l2 rest2 => exact h l2 (by simp)
    obtain ⟨s, hs⟩ := Option.isSome_iff_exists.mp hps
    simp only [position_chain, resolved_chain, hs, ih hrest, Option.map_some',
      Option.getD_some]

/-- C1: whenever every strict ancestor of the element (up to and including
the topmost `UIElement`, whose parent is the Scene) has a surface,
`calculate_absolute_position` returns the truncated componentwise sum of the
chain of relative positions, each resolved against its own parent's surface
size. -/
theorem calculate_absolute_position_eq_sum_of_resolved
    (links : List ChainLink) (scene_surf : Surf)
    (h : ∀ l ∈ links.drop 1, l.surf.isSome) :
    calculate_absolute_position links scene_surf =
      some (pytrunc ((resolved_chain links scene_surf).map Prod.fst).sum,
            pytrunc ((resolved_chain links scene_surf).map Prod.snd).sum) := by
  unfold calculate_absolute_position
  rw [position_chain_eq_resolved links scene_surf h, Option.map_some']

/-- C1 witness: the spec's 2-level example.  Root at scale 0, offset
(10, 10) with a 100×100 surface sitting in a Scene (scene surface 640×480,
irrelevant since the root's scale is 0); child at scale 0.5, offset (5, 5).
The child's absolute position is (65, 65). -/
theorem calculate_absolute_position_two_level_example :
    (∀ l ∈ ([⟨⟨1/2, 5, 1/2, 5⟩, none⟩,
             ⟨⟨0, 10, 0, 10⟩, some ⟨100, 100⟩⟩] : List ChainLink).drop 1,
        l.surf.isSome) ∧
    calculate_absolute_position
        [⟨⟨1/2, 5, 1/2, 5⟩, none⟩, ⟨⟨0, 10, 0, 10⟩, some ⟨100, 100⟩⟩]
        ⟨640, 480⟩ = some (65, 65) := by
  refine ⟨by with_unfolding_all decide, ?_⟩
  rw [calculate_absolute_position_eq_sum_of_resolved _ _ (by with_unfolding_all decide)]
  with_unfolding_all rfl

/-! ## Events and `ScrollingFrame.scroll_handler`

A pygame event, reduced to what the handlers inspect: type, button, and
pointer position. -/

/-- A pygame event as consumed by `handle_event` / `scroll_handler`:
`MOUSEBUTTONDOWN` with a button number and pointer position, `MOUSEMOTION`
with a pointer position, or anything else. -/
inductive PyEvent where
  | mouseButtonDown (button : ℤ) (pos : ℤ × ℤ)
  | mouseMotion (pos : ℤ × ℤ)
  | otherEvent
  deriving DecidableEq

/-- `ScrollingFrame.scroll_handler`, reduced to its effect on
`self.scroll_pos`.  Guards: the pointer must be over the frame
(`mouse_over`), the frame must be `scrollable`, and `parent.surf` must be
set.  Button 4 (wheel-up) moves `scroll_pos` toward 0 by at most
`scroll_speed`; button 5 (wheel-down) — only when the resolved viewport
height is smaller than `scroll_limits.y` — moves it down by at most
`scroll_speed`, never past `-(scroll_limits.y - viewport height)`.
`window_h` is the resolved `to_simple(window_size, parent.surf)` height. -/
def scroll_handler (mouse_over scrollable parent_surf_set : Bool)
    (scroll_speed limits_y window_h : ℤ) (scroll_pos : ℤ) (e : PyEvent) : ℤ :=
  if ¬mouse_over ∨ ¬scrollable ∨ ¬parent_surf_set then scroll_pos
  else
    match e with
    | .mouseButtonDown b _ =>
      if b = 4 then scroll_pos + min scroll_speed (-scroll_pos)
      else if b = 5 then
        if window_h < limits_y then
          scroll_pos - min scroll_speed (limits_y + scroll_pos - window_h)
        else scroll_pos
      else scroll_pos
    | _ => scroll_pos

/-- The scroll-offset invariant of a `ScrollingFrame` whose viewport is
smaller than its content. -/
def scroll_inv (limits_y window_h pos : ℤ) : Prop :=
  pos ≤ 0 ∧ -(limits_y - window_h) ≤ pos

/-- One `scroll_handler` call (any guards, any event) preserves the
scroll-offset invariant. -/
lemma scroll_handler_preserves_inv (speed limits_y window_h : ℤ)
    (hs : 0 ≤ speed) (pos : ℤ) (hinv : scroll_inv limits_y window_h pos)
    (g : Bool × Bool × Bool) (e : PyEvent) :
    scroll_inv limits_y window_h
      (scroll_handler g.1 g.2.1 g.2.2 speed limits_y window_h pos e) := by
  obtain ⟨h0, h1⟩ := hinv
  unfold scroll_handler
  split
  · exact ⟨h0, h1⟩
  · cases e with
    | mouseButtonDown b p =>
      simp only
      split
      · constructor <;> [skip; skip] <;> omega
      · split
        · split
          · constructor <;> omega
          · exact ⟨h0, h1⟩
        · exact ⟨h0, h1⟩
    | mouseMotion p => exact ⟨h0, h1⟩
    | otherEvent => exact ⟨h0, h1⟩

lemma scroll_handler_foldl_inv (speed limits_y window_h : ℤ) (hs : 0 ≤ speed)
    (evs : List ((Bool × Bool × Bool) × PyEvent)) (pos : ℤ)
    (hinv : scroll_inv limits_y window_h pos) :
    scroll_inv limits_y window_h
      (evs.foldl
        (fun p ge => scroll_handler ge.1.1 ge.1.2.1 ge.1.2.2
          speed limits_y window_h p ge.2) pos) := by
  induction evs generalizing pos with
  | nil => exact hinv
  | cons ge rest ih =>
    exact ih _ (scroll_handler_preserves_inv speed limits_y window_h hs pos hinv ge.1 ge.2)

/-- C2: for a scrollable viewport strictly smaller than the content
(`window_h < limits_y`, nonnegative scroll speed — the constructor fixes it
at 10), starting from `scroll_pos = 0`, after any sequence of
`scroll_handler` invocations (arbitrary guards and events) the invariant
`0 ≥ scroll_pos ≥ -(limits_y - window_h)` holds; concretely, with
`scroll_limits.y = 500`, viewport height 100 and speed 10: one wheel-down
from 0 gives -10, wheel-down at the bottom (-400) stays put, and wheel-up
from -400 moves back toward 0 (to -390). -/
theorem scroll_handler_clamps (speed limits_y window_h : ℤ)
    (hs : 0 ≤ speed) (hw : window_h < limits_y)
    (evs : List ((Bool × Bool × Bool) × PyEvent)) :
    scroll_inv limits_y window_h
      (evs.foldl
        (fun p ge => scroll_handler ge.1.1 ge.1.2.1 ge.1.2.2
          speed limits_y window_h p ge.2) 0) ∧
    scroll_handler true true true 10 500 100 0 (.mouseButtonDown 5 (0, 0)) = -10 ∧
    scroll_handler true true true 10 500 100 (-400) (.mouseButtonDown 5 (0, 0)) = -400 ∧
    scroll_handler true true true 10 500 100 (-400) (.mouseButtonDown 4 (0, 0)) = -390 := by
  refine ⟨scroll_handler_foldl_inv speed limits_y window_h hs evs 0 ⟨le_refl 0, by omega⟩,
    by decide, by decide, by decide⟩

/-- C2 witness: concrete instantiation with the spec's numbers and a short
wheel-down/wheel-up event sequence. -/
theorem scroll_handler_clamps_witness :
    (0 : ℤ) ≤ 10 ∧ (100 : ℤ) < 500 ∧
    scroll_inv 500 100
      (([(⟨true, true, true⟩, PyEvent.mouseButtonDown 5 (0, 0)),
         (⟨true, true, true⟩, PyEvent.mouseButtonDown 5 (0, 0)),
         (⟨true, true, true⟩, PyEvent.mouseButtonDown 4 (0, 0))] :
          List ((Bool × Bool × Bool) × PyEvent)).foldl
        (fun p ge => scroll_handler ge.1.1 ge.1.2.1 ge.1.2.2
          10 500 100 p ge.2) 0) :=
  ⟨by decide, by decide,
    (scroll_handler_clamps 10 500 100 (by decide) (by decide) _).1⟩

/-! ## `get_descendants` (`UIElement` and `Scene` share the same body)

The tree of children below a node, with a `ℕ` label standing for object
identity.  `get_descendants` copies the children list and then extends it
with each child's descendants, in order:
`descendants = children[:]; for child: descendants.extend(child.get_descendants())`. -/

/-- A node of the child tree (a `UIElement` with its children, or a `Scene`
at the root — both classes have the identical `get_descendants` body). -/
inductive UITree where
  | node (label : ℕ) (children : List UITree)

/-- The label (object identity) of a tree node. -/
def UITree.labelOf : UITree → ℕ
  | .node n _ => n

mutual

/-- `get_descendants`: the children list, then each child's descendants. -/
def get_descendants : UITree → List UITree
  | .node _ cs => cs ++ get_descendants_list cs

/-- The `for child in self.children: descendants.extend(child.get_descendants())`
loop. -/
def get_descendants_list : List UITree → List UITree
  | [] => []
  | t :: ts => get_descendants t ++ get_descendants_list ts

end

mutual

/-- Depth-first pre-order flattening of the strict subtree below a node, as
the specification words it: each child immediately followed by that child's
descendants, before the next sibling. -/
def preorder_descendants : UITree → List UITree
  | .node _ cs => preorder_list cs

def preorder_list : List UITree → List UITree
  | [] => []
  | t :: ts => t :: (preorder_descendants t ++ preorder_list ts)

end

mutual

/-- All labels of the subtree rooted at a node (the node itself included). -/
def subtree_labels : UITree → List ℕ
  | .node n cs => n :: subtree_labels_list cs

def subtree_labels_list : List UITree → List ℕ
  | [] => []
  | t :: ts => subtree_labels t ++ subtree_labels_list ts

end

lemma get_descendants_list_eq_flatten (cs : List UITree) :
    get_descendants_list cs = (cs.map get_descendants).flatten := by
  induction cs with
  | nil => rfl
  | cons t ts ih => simp [get_descendants_list, ih]

mutual

theorem get_descendants_perm_subtree (t : UITree) :
    (t.labelOf :: (get_descendants t).map UITree.labelOf).Perm (subtree_labels t) := by
  cases t with
  | node n cs =>
    simp only [UITree.labelOf, get_descendants, subtree_labels, List.map_append]
    exact (get_descendants_list_perm_subtree cs).cons n

theorem get_descendants_list_perm_subtree (ts : List UITree) :
    (ts.map UITree.labelOf ++ (get_descendants_list ts).map UITree.labelOf).Perm
      (subtree_labels_list ts) := by
  cases ts with
  | nil => simp [get_descendants_list, subtree_labels_list]
  | cons t ts' =>
    simp only [List.map_cons, get_descendants_list, subtree_labels_list,
      List.map_append, List.cons_append]
    refine ((List.perm_append_comm_assoc _ _ _).cons t.labelOf).trans ?_
    rw [← List.cons_append]
    exact (get_descendants_perm_subtree t).append
      (get_descendants_list_perm_subtree ts')

end

/-- C3 counterexample: for the depth-3 tree `0 → [1 → [3], 2]`,
`get_descendants` returns the nodes labelled `[1, 2, 3]` (all children
first, then the first child's descendants), while a depth-first pre-order
flattening — each child immediately followed by its own descendants before
the next sibling — would return `[1, 3, 2]`. -/
theorem get_descendants_not_preorder :
    (get_descendants (.node 0 [.node 1 [.node 3 []], .node 2 []])).map
        UITree.labelOf = [1, 2, 3] ∧
    (preorder_descendants (.node 0 [.node 1 [.node 3 []], .node 2 []])).map
        UITree.labelOf = [1, 3, 2] ∧
    (get_descendants (.node 0 [.node 1 [.node 3 []], .node 2 []])).map
        UITree.labelOf ≠
      (preorder_descendants (.node 0 [.node 1 [.node 3 []], .node 2 []])).map
        UITree.labelOf := by
  refine ⟨rfl, rfl, by decide⟩

/-- C3 (amended): `get_descendants` returns every node of the strict subtree
below the receiver exactly once (the returned labels together with the
receiver's own label are a permutation of the subtree's labels), but in the
order "all direct children first, then each child's full descendant list in
turn" — not in depth-first pre-order. -/
theorem get_descendants_subtree_exactly_once :
    (∀ t : UITree,
      (t.labelOf :: (get_descendants t).map UITree.labelOf).Perm
        (subtree_labels t)) ∧
    (∀ (n : ℕ) (cs : List UITree),
      get_descendants (.node n cs) = cs ++ (cs.map get_descendants).flatten) :=
  ⟨fun t => get_descendants_perm_subtree t,
   fun _ cs => by rw [get_descendants, get_descendants_list_eq_flatten]⟩

/-! ## Priority sort before each draw pass (C6)

`Scene.draw` and `UIElement.draw_children` both run
`self.children.sort(key=lambda c: c.priority)` before iterating.  Python's
`list.sort` is a stable sort by the key, ascending; any stable sort by a key
produces the same output, so we model it with `List.mergeSort` (stable). -/

/-- A child element as far as the draw-pass sort is concerned: its render
priority and its identity (original insertion index). -/
structure PyChild where
  priority : ℤ
  id : ℕ
  deriving DecidableEq

/-- The comparison `list.sort(key=lambda c: c.priority)` sorts by. -/
def priority_le (a b : PyChild) : Bool :=
  a.priority ≤ b.priority

/-- `children.sort(key=lambda c: c.priority)`: Python's stable ascending
sort, modelled by stable merge sort. -/
def sort_children (l : List PyChild) : List PyChild :=
  l.mergeSort priority_le

lemma priority_le_trans (a b c : PyChild) :
    priority_le a b → priority_le b c → priority_le a c := by
  simp only [priority_le, decide_eq_true_eq]
  omega

lemma priority_le_total (a b : PyChild) : priority_le a b || priority_le b a := by
  simp only [priority_le, Bool.or_eq_true, decide_eq_true_eq]
  omega

lemma pairwise_of_forall_mem {α : Type} {R : α → α → Prop} :
    ∀ {l : List α}, (∀ a ∈ l, ∀ b ∈ l, R a b) → l.Pairwise R
  | [], _ => List.Pairwise.nil
  | x :: xs, h =>
    List.Pairwise.cons (fun b hb => h x (by simp) b (by simp [hb]))
      (pairwise_of_forall_mem fun a ha b hb =>
        h a (by simp [ha]) b (by simp [hb]))

/-- C6: the draw-pass sort is stable — for every priority value `p`, the
equal-priority children appear in the sorted list exactly as they appear in
the original insertion order — and it is idempotent, so the relative order
of equal-priority children is preserved across arbitrarily many repeated
draw passes (after the first pass the list is sorted in place and further
sorts leave it unchanged). -/
theorem sort_children_stable_and_idempotent (l : List PyChild) (p : ℤ) :
    (sort_children l).filter (fun c => c.priority = p) =
      l.filter (fun c => c.priority = p) ∧
    sort_children (sort_children l) = sort_children l := by
  constructor
  · have hpair : (l.filter (fun c => decide (c.priority = p))).Pairwise
        (fun a b => priority_le a b) := by
      refine pairwise_of_forall_mem fun a ha b hb => ?_
      have ha' := (List.mem_filter.mp ha).2
      have hb' := (List.mem_filter.mp hb).2
      simp only [decide_eq_true_eq] at ha' hb'
      simp [priority_le, ha', hb']
    have hsub : List.Sublist (l.filter (fun c => decide (c.priority = p))) l :=
      List.filter_sublist l
    have hsl := List.sublist_mergeSort priority_le_trans priority_le_total
      hpair hsub
    have hfil := hsl.filter (fun c => decide (c.priority = p))
    rw [List.filter_filter] at hfil
    simp only [Bool.and_self] at hfil
    have hperm : ((sort_children l).filter (fun c => decide (c.priority = p))).Perm
        (l.filter (fun c => decide (c.priority = p))) :=
      (List.mergeSort_perm l priority_le).filter _
    exact ((hfil.eq_of_length hperm.length_eq.symm)).symm
  · unfold sort_children
    exact List.mergeSort_of_sorted
      (List.sorted_mergeSort priority_le_trans priority_le_total l)

/-! ## `UIElement.handle_event` (C7, C9)

The handler table is modelled by which singular slots are bound
(`mbd`, `mover`, `menter`, `mexit`) plus the number of universal handlers;
the observable effect of a call is the updated element state together with
the list of handler invocations, in order. -/

/-- A pygame `Rect` (position and size in absolute pixels). -/
structure PyRect where
  left : ℤ
  top : ℤ
  w : ℤ
  h : ℤ
  deriving DecidableEq

/-- `Rect.collidepoint(pos)`: a point on the right or bottom edge is not
inside the rectangle. -/
def collidepoint (r : PyRect) (pos : ℤ × ℤ) : Bool :=
  r.left ≤ pos.1 && pos.1 < r.left + r.w && r.top ≤ pos.2 && pos.2 < r.top + r.h

/-- Which handler slots of `self.handlers` are bound, and how many universal
handlers the `uevent` list holds. -/
structure Handlers where
  mbd : Bool
  mover : Bool
  menter : Bool
  mexit : Bool
  uevent : ℕ
  deriving DecidableEq

/-- The element state read and written by `handle_event`. -/
structure ElemState where
  active : Bool
  rect : PyRect
  mouse_inside : Bool
  deriving DecidableEq

/-- A handler invocation, as observed by the caller. -/
inductive Fired where
  | mbd
  | mover
  | menter
  | mexit
  | uevent
  deriving DecidableEq

/-- `UIElement.handle_event(event, tick)`: returns the new element state and
the handler invocations, in order.  Immediately returns when `active` is
false.  For a left button-down inside `rect`, fires `mbd` (if bound).  For a
motion event inside `rect`: on a false→true `mouse_inside` transition fires
`menter` (if bound), then always fires `mover` (if bound); for a motion
event outside `rect` while `mouse_inside` was true, clears the flag and
fires `mexit` (if bound).  Finally every universal handler fires, for every
event kind. -/
def handle_event (h : Handlers) (st : ElemState) (e : PyEvent) :
    ElemState × List Fired :=
  if !st.active then (st, [])
  else
    let step : ElemState × List Fired :=
      match e with
      | .mouseButtonDown b pos =>
        if b = 1 && collidepoint st.rect pos && h.mbd then (st, [.mbd])
        else (st, [])
      | .mouseMotion pos =>
        if collidepoint st.rect pos then
          let enter := !st.mouse_inside
          ({ st with mouse_inside := true },
           (if enter && h.menter then [Fired.menter] else []) ++
           (if h.mover then [Fired.mover] else []))
        else if st.mouse_inside then
          ({ st with mouse_inside := false },
           if h.mexit then [Fired.mexit] else [])
        else (st, [])
      | .otherEvent => (st, [])
    (step.1, step.2 ++ List.replicate h.uevent .uevent)

/-- C7: processing a pointer-motion event on an active element sets
`mouse_inside` to exactly "the pointer is inside `rect`"; `menter` fires iff
the pointer is inside and `mouse_inside` was false (and the slot is bound);
`mover` fires iff the pointer is inside (and the slot is bound); `mexit`
fires iff the pointer is outside while `mouse_inside` was true (and the
slot is bound). -/
theorem handle_event_motion_spec (h : Handlers) (r : PyRect) (mi : Bool)
    (pos : ℤ × ℤ) :
    (handle_event h ⟨true, r, mi⟩ (.mouseMotion pos)).1.mouse_inside =
        collidepoint r pos ∧
    (Fired.menter ∈ (handle_event h ⟨true, r, mi⟩ (.mouseMotion pos)).2 ↔
        collidepoint r pos = true ∧ mi = false ∧ h.menter = true) ∧
    (Fired.mover ∈ (handle_event h ⟨true, r, mi⟩ (.mouseMotion pos)).2 ↔
        collidepoint r pos = true ∧ h.mover = true) ∧
    (Fired.mexit ∈ (handle_event h ⟨true, r, mi⟩ (.mouseMotion pos)).2 ↔
        collidepoint r pos = false ∧ mi = true ∧ h.mexit = true) := by
  unfold handle_event
  cases hc : collidepoint r pos <;> cases mi <;>
    cases hment : h.menter <;> cases hmov : h.mover <;> cases hmex : h.mexit <;>
    simp [hc, hment, hmov, hmex, List.mem_replicate]

/-- C9: `handle_event` on an inactive element is a no-op for every event:
the state (including `mouse_inside`) is returned unchanged and no handler
— neither a singular slot nor any universal handler — fires. -/
theorem handle_event_inactive_noop (h : Handlers) (r : PyRect) (mi : Bool)
    (e : PyEvent) :
    handle_event h ⟨false, r, mi⟩ e = (⟨false, r, mi⟩, []) := by
  unfold handle_event
  rfl

/-! ## `UIElement.get_child_of_name` (C8)

The source reads

```
for name in self.children:
    if child.name == name:
        return child
return None
```

The loop variable shadows the `name` parameter and the body references a
variable `child` that is never bound, so the very first iteration raises
`NameError: name 'child' is not defined`.  Only with an empty children list
does the loop body never run, and the function returns `None`. -/

/-- A child as far as name lookup is concerned. -/
structure NamedChild where
  name : String
  deriving DecidableEq

/-- `get_child_of_name(children, name)`: `Except.error` models the Python
exception escaping the call; `Except.ok` models a normal return. -/
def get_child_of_name (children : List NamedChild) (nm : String) :
    Except String (Option NamedChild) :=
  match children with
  | [] => Except.ok none
  | _ :: _ => Except.error "NameError: name 'child' is not defined"

/-- C8 (the code, evaluated at the failing input): looking up a name that no
child has does return `None` for an empty children list, but for a
non-empty children list — here a single child named "a", looked up as "b" —
the call raises `NameError` instead of returning `None`: a loud failure, not
the quiet absent-optional the claim describes. -/
theorem get_child_of_name_raises_on_nonempty :
    get_child_of_name [] "b" = Except.ok none ∧
    get_child_of_name [⟨"a"⟩] "b" =
      Except.error "NameError: name 'child' is not defined" := by
  exact ⟨rfl, rfl⟩

/-! ## Constructor argument threading (C10)

`UIElement.__init__(self, pos, surf, fill_color=None, render_priority=1)`.
`ScrollingFrame.__init__` calls `super().__init__(pos, None, render_priority)`
and `Image.__init__` calls `super().__init__(pos, <surface>, render_priority)`:
in both, the third positional argument lands in the `fill_color` parameter,
and `priority` keeps the default 1.  `Option` and `Text` pass all four
positionally in the right order. -/

/-- A dynamically typed Python value, as far as the `fill_color` slot and
its truthiness test are concerned. -/
inductive PyVal where
  | pynone
  | pyint (n : ℤ)
  | pycolor (rgb : ℤ × ℤ × ℤ)
  deriving DecidableEq

/-- Python truthiness: `None` is falsy, an `int` is truthy iff nonzero, a
(nonempty) tuple is always truthy. -/
def PyVal.truthy : PyVal → Bool
  | .pynone => false
  | .pyint n => n != 0
  | .pycolor _ => true

/-- The attributes set by `UIElement.__init__` that the claims inspect. -/
structure UIElementRec where
  name : String
  rel_pos : XYComplex
  surf : Option Surf
  c_surf : Option Surf
  rect : Option PyRect
  fill_color : PyVal
  priority : ℤ
  visible : Bool
  active : Bool
  mouse_inside : Bool

/-- `UIElement.__init__(pos, surf, fill_color=None, render_priority=1)`. -/
def UIElement_init (pos : XYComplex) (surf : Option Surf) (fill_color : PyVal)
    (render_priority : ℤ) : UIElementRec :=
  { name := ""
    rel_pos := pos
    surf := surf
    c_surf := none
    rect := none
    fill_color := if fill_color.truthy then fill_color else .pycolor (0, 0, 0)
    priority := render_priority
    visible := true
    active := true
    mouse_inside := false }

/-- `ScrollingFrame.__init__`: `super().__init__(pos, None, render_priority)` —
three positional arguments, so `render_priority` lands in `fill_color` and
the priority parameter keeps its default 1. -/
def ScrollingFrame_init (pos : XYComplex) (scroll_limits : ℤ × ℤ)
    (window_size : XYComplex) (scroll_fill : PyVal) (render_priority : ℤ) :
    UIElementRec :=
  UIElement_init pos none (.pyint render_priority) 1

/-- The argument of `Image.__init__`: a file path or an already-loaded
surface. -/
inductive ImageSrc where
  | path (p : String)
  | surface (s : Surf)

/-- `Image.__init__`: either branch calls
`super().__init__(pos, <surface>, render_priority)` — again three positional
arguments, so `render_priority` lands in `fill_color`.  `load` is the
external `pygame.image.load(...).convert_alpha()` capability. -/
def Image_init (load : String → Surf) (pos : XYComplex) (image_path : ImageSrc)
    (render_priority : ℤ) : UIElementRec :=
  match image_path with
  | .path p => UIElement_init pos (some (load p)) (.pyint render_priority) 1
  | .surface s => UIElement_init pos (some s) (.pyint render_priority) 1

/-- `Sprite.__init__`: `super().__init__(pos, image_path, render_priority)`
delegates to `Image.__init__` (and then only sets `anchor`/`rot`/mask
fields, which do not touch `priority`). -/
def Sprite_init (load : String → Surf) (pos : XYComplex) (image_path : ImageSrc)
    (anchor : ℕ) (render_priority : ℤ) (mask : Bool) : UIElementRec :=
  Image_init load pos image_path render_priority

/-- `Option.__init__`: `super().__init__(pos, surf, fill_color, render_priority)`
— all four positional arguments in the right order. -/
def Option_init (pos : XYComplex) (surf : Option Surf) (fill_color : PyVal)
    (render_priority : ℤ) : UIElementRec :=
  UIElement_init pos surf fill_color render_priority

/-- `Text.__init__`: `super().__init__(pos, None, fill_color, render_priority)`
— correct order — and then allocates `self.surf` at the requested size. -/
def Text_init (pos : XYComplex) (size : ℕ × ℕ) (fill_color : PyVal)
    (render_priority : ℤ) : UIElementRec :=
  { UIElement_init pos none fill_color render_priority with
    surf := some ⟨size.1, size.2⟩ }

/-- C10: `ScrollingFrame`, `Image` and `Sprite` constructed with any
`render_priority = p` end up with the base-class default `priority = 1`
(their `render_priority` is swallowed by the `fill_color` parameter), while
`UIElement`, `Option` and `Text` constructed with `render_priority = p` end
up with `priority = p`. -/
theorem render_priority_threading (load : String → Surf) (pos : XYComplex)
    (sl : ℤ × ℤ) (ws : XYComplex) (sf fc : PyVal) (ip : ImageSrc)
    (anchor : ℕ) (mask : Bool) (surf : Option Surf) (size : ℕ × ℕ) (p : ℤ) :
    (ScrollingFrame_init pos sl ws sf p).priority = 1 ∧
    (Image_init load pos ip p).priority = 1 ∧
    (Sprite_init load pos ip anchor p mask).priority = 1 ∧
    (UIElement_init pos surf fc p).priority = p ∧
    (Option_init pos surf fc p).priority = p ∧
    (Text_init pos size fc p).priority = p := by
  refine ⟨rfl, ?_, ?_, rfl, rfl, rfl⟩ <;>
    cases ip <;> rfl

/-! ## `Text.render_text` word wrapping (C4)

The wrap branch of `render_text`, for a single input line (no explicit
newlines) and the default center anchor (`anchor = 1`).  A word surface is
modelled by its pixel size; the word positions, per-line centering offsets,
running `x`/`y` and `n_lines` counters are threaded exactly as in the loop.
All pixel sizes from pygame are naturals; the `0.5 * …` arithmetic is exact
over `ℚ`. -/

/-- A rendered word surface (`font.render(word, *args)`): its pixel size. -/
structure WordSurf where
  w : ℕ
  h : ℕ
  deriving DecidableEq

/-- One entry of `render_list`: the words of a packed line with their
`(x, y)` positions, and the line's accumulated centering offset. -/
structure TextLine where
  words : List (WordSurf × ℚ × ℚ)
  off : ℚ
  deriving DecidableEq

/-- The loop state of the word-packing pass. -/
structure PackState where
  render_list : List TextLine
  line_surfs : TextLine
  x : ℚ
  y : ℚ
  n_lines : ℕ
  deriving DecidableEq


/-- One iteration of the `for j, word in enumerate(line)` body: before
appending a word, if `x + 0.5*word_w + line_surfs[1] >= max_width`, flush
the current line into `render_list` and start a new one (reset `x`, step `y`
down by the word height, bump `n_lines` for the center anchor); then append
the word at the running position, account half the word-plus-space width
into the centering offset (space only when the word is not the line's last,
`j < len(line)-1`), and advance `x`. -/
def pack_step (max_width space : ℚ) (anchor : ℕ) (posx : ℚ) (ws : WordSurf)
    (is_last : Bool) (st : PackState) : PackState :=
  let st1 : PackState :=
    if st.x + (ws.w : ℚ) / 2 + st.line_surfs.off ≥ max_width then
      { render_list := st.render_list ++ [st.line_surfs]
        line_surfs := ⟨[], 0⟩
        x := posx
        y := st.y + (ws.h : ℚ)
        n_lines := if anchor = 1 then st.n_lines + 1 else st.n_lines }
    else st
  { st1 with
    line_surfs :=
      ⟨st1.line_surfs.words ++ [(ws, st1.x, st1.y)],
       if anchor = 1 then
         st1.line_surfs.off - ((ws.w : ℚ) + (if is_last then 0 else space)) / 2
       else st1.line_surfs.off⟩
    x := st1.x + (ws.w : ℚ) + space }

/-- The whole `for j, word in enumerate(line)` loop. -/
def pack_words (max_width space : ℚ) (anchor : ℕ) (posx : ℚ) :
    List WordSurf → PackState → PackState
  | [], st => st
  | ws :: rest, st =>
    pack_words max_width space anchor posx rest
      (pack_step max_width space anchor posx ws rest.isEmpty st)

/-- The wrap branch of `render_text` for a single input line: run the
packing loop from `pos = (0, 0)` (top-left anchor) or the `int`-truncated
surface midpoint (center anchor), then append the trailing `line_surfs`;
returns `render_list` and the final `n_lines` count. -/
def render_text_single_line (max_width max_height space_w : ℕ) (anchor : ℕ)
    (words : List WordSurf) : List TextLine × ℕ :=
  let pos : ℚ × ℚ :=
    if anchor = 0 then (0, 0)
    else ((pytrunc ((max_width : ℚ) / 2) : ℚ), (pytrunc ((max_height : ℚ) / 2) : ℚ))
  let st := pack_words (max_width : ℚ) (space_w : ℚ) anchor pos.1 words
    ⟨[], ⟨[], 0⟩, pos.1, pos.2, 0⟩
  (st.render_list ++ [st.line_surfs], if anchor = 1 then st.n_lines + 1 else st.n_lines)

lemma pytrunc_natCast_div_two (n : ℕ) : pytrunc ((n : ℚ) / 2) = (n / 2 : ℕ) := by
  unfold pytrunc
  rw [if_pos (by positivity)]
  exact_mod_cast Rat.floor_natCast_div_natCast n 2

lemma pack_step_flush (mw sp : ℚ) (a : ℕ) (px : ℚ) (ws : WordSurf)
    (il : Bool) (st : PackState)
    (hcond : st.x + (ws.w : ℚ) / 2 + st.line_surfs.off ≥ mw) :
    pack_step mw sp a px ws il st =
      { render_list := st.render_list ++ [st.line_surfs]
        line_surfs :=
          ⟨[(ws, px, st.y + (ws.h : ℚ))],
           if a = 1 then 0 - ((ws.w : ℚ) + (if il then 0 else sp)) / 2 else 0⟩
        x := px + (ws.w : ℚ) + sp
        y := st.y + (ws.h : ℚ)
        n_lines := if a = 1 then st.n_lines + 1 else st.n_lines } := by
  unfold pack_step
  rw [if_pos hcond]
  rfl


lemma pack_step_noflush (mw sp : ℚ) (a : ℕ) (px : ℚ) (ws : WordSurf)
    (il : Bool) (st : PackState)
    (hcond : ¬(st.x + (ws.w : ℚ) / 2 + st.line_surfs.off ≥ mw)) :
    pack_step mw sp a px ws il st =
      { render_list := st.render_list
        line_surfs :=
          ⟨st.line_surfs.words ++ [(ws, st.x, st.y)],
           if a = 1 then
             st.line_surfs.off - ((ws.w : ℚ) + (if il then 0 else sp)) / 2
           else st.line_surfs.off⟩
        x := st.x + (ws.w : ℚ) + sp
        y := st.y
        n_lines := st.n_lines } := by
  unfold pack_step
  rw [if_neg hcond]

/-- C4: with the center anchor, a surface width strictly wider than two
equal words plus the separating space but strictly narrower than three
words plus two spaces — i.e. wide enough for exactly two words per line
under the packer's reach-check — a single line of four equal-size words is
packed into exactly 2 lines. -/
theorem render_text_four_words_two_lines (W H s w h : ℕ)
    (h2 : 2 * w + s < W) (h3 : W < 3 * w + 2 * s) :
    (render_text_single_line W H s 1
      [⟨w, h⟩, ⟨w, h⟩, ⟨w, h⟩, ⟨w, h⟩]).1.length = 2 := by
  have hsplit : 2 * ((W / 2 : ℕ) : ℚ) + ((W % 2 : ℕ) : ℚ) = (W : ℚ) := by
    exact_mod_cast congrArg (Nat.cast : ℕ → ℚ) (Nat.div_add_mod W 2)
  have hr1 : ((W % 2 : ℕ) : ℚ) ≤ 1 := by
    have hh : W % 2 ≤ 1 := by omega
    exact_mod_cast hh
  have hr0 : (0 : ℚ) ≤ ((W % 2 : ℕ) : ℚ) := by positivity
  have hw0 : (0 : ℚ) ≤ (w : ℚ) := by positivity
  have hs0 : (0 : ℚ) ≤ (s : ℚ) := by positivity
  have hq2 : 2 * (w : ℚ) + (s : ℚ) < (W : ℚ) := by exact_mod_cast h2
  have hq31 : (W : ℚ) + 1 ≤ 3 * (w : ℚ) + 2 * (s : ℚ) := by
    have hh : W + 1 ≤ 3 * w + 2 * s := h3
    exact_mod_cast hh
  have e1 : pack_step (W : ℚ) (s : ℚ) 1 ((W / 2 : ℕ) : ℚ) ⟨w, h⟩ false
      ⟨[], ⟨[], 0⟩, ((W / 2 : ℕ) : ℚ), ((H / 2 : ℕ) : ℚ), 0⟩ =
      ⟨[], ⟨[(⟨w, h⟩, ((W / 2 : ℕ) : ℚ), ((H / 2 : ℕ) : ℚ))],
          0 - ((w : ℚ) + (s : ℚ)) / 2⟩,
        ((W / 2 : ℕ) : ℚ) + (w : ℚ) + (s : ℚ), ((H / 2 : ℕ) : ℚ), 0⟩ :=
    (pack_step_noflush _ _ _ _ _ _ _ (by
      show ¬(((W / 2 : ℕ) : ℚ) + (w : ℚ) / 2 + 0 ≥ (W : ℚ))
      simp only [ge_iff_le, not_le]
      linarith)).trans rfl
  have e2 : pack_step (W : ℚ) (s : ℚ) 1 ((W / 2 : ℕ) : ℚ) ⟨w, h⟩ false
      ⟨[], ⟨[(⟨w, h⟩, ((W / 2 : ℕ) : ℚ), ((H / 2 : ℕ) : ℚ))],
          0 - ((w : ℚ) + (s : ℚ)) / 2⟩,
        ((W / 2 : ℕ) : ℚ) + (w : ℚ) + (s : ℚ), ((H / 2 : ℕ) : ℚ), 0⟩ =
      ⟨[], ⟨[(⟨w, h⟩, ((W / 2 : ℕ) : ℚ), ((H / 2 : ℕ) : ℚ)),
             (⟨w, h⟩, ((W / 2 : ℕ) : ℚ) + (w : ℚ) + (s : ℚ), ((H / 2 : ℕ) : ℚ))],
          0 - ((w : ℚ) + (s : ℚ)) / 2 - ((w : ℚ) + (s : ℚ)) / 2⟩,
        ((W / 2 : ℕ) : ℚ) + (w : ℚ) + (s : ℚ) + (w : ℚ) + (s : ℚ),
        ((H / 2 : ℕ) : ℚ), 0⟩ :=
    (pack_step_noflush _ _ _ _ _ _ _ (by
      show ¬(((W / 2 : ℕ) : ℚ) + (w : ℚ) + (s : ℚ) + (w : ℚ) / 2 +
        (0 - ((w : ℚ) + (s : ℚ)) / 2) ≥ (W : ℚ))
      simp only [ge_iff_le, not_le]
      linarith)).trans rfl
  have e3 : pack_step (W : ℚ) (s : ℚ) 1 ((W / 2 : ℕ) : ℚ) ⟨w, h⟩ false
      ⟨[], ⟨[(⟨w, h⟩, ((W / 2 : ℕ) : ℚ), ((H / 2 : ℕ) : ℚ)),
             (⟨w, h⟩, ((W / 2 : ℕ) : ℚ) + (w : ℚ) + (s : ℚ), ((H / 2 : ℕ) : ℚ))],
          0 - ((w : ℚ) + (s : ℚ)) / 2 - ((w : ℚ) + (s : ℚ)) / 2⟩,
        ((W / 2 : ℕ) : ℚ) + (w : ℚ) + (s : ℚ) + (w : ℚ) + (s : ℚ),
        ((H / 2 : ℕ) : ℚ), 0⟩ =
      ⟨[⟨[(⟨w, h⟩, ((W / 2 : ℕ) : ℚ), ((H / 2 : ℕ) : ℚ)),
          (⟨w, h⟩, ((W / 2 : ℕ) : ℚ) + (w : ℚ) + (s : ℚ), ((H / 2 : ℕ) : ℚ))],
         0 - ((w : ℚ) + (s : ℚ)) / 2 - ((w : ℚ) + (s : ℚ)) / 2⟩],
        ⟨[(⟨w, h⟩, ((W / 2 : ℕ) : ℚ), ((H / 2 : ℕ) : ℚ) + (h : ℚ))],
          0 - ((w : ℚ) + (s : ℚ)) / 2⟩,
        ((W / 2 : ℕ) : ℚ) + (w : ℚ) + (s : ℚ),
        ((H / 2 : ℕ) : ℚ) + (h : ℚ), 1⟩ :=
    (pack_step_flush _ _ _ _ _ _ _ (by
      show ((W / 2 : ℕ) : ℚ) + (w : ℚ) + (s : ℚ) + (w : ℚ) + (s : ℚ) +
        (w : ℚ) / 2 +
        (0 - ((w : ℚ) + (s : ℚ)) / 2 - ((w : ℚ) + (s : ℚ)) / 2) ≥ (W : ℚ)
      simp only [ge_iff_le]
      linarith)).trans rfl
  have e4 : pack_step (W : ℚ) (s : ℚ) 1 ((W / 2 : ℕ) : ℚ) ⟨w, h⟩ true
      ⟨[⟨[(⟨w, h⟩, ((W / 2 : ℕ) : ℚ), ((H / 2 : ℕ) : ℚ)),
          (⟨w, h⟩, ((W / 2 : ℕ) : ℚ) + (w : ℚ) + (s : ℚ), ((H / 2 : ℕ) : ℚ))],
         0 - ((w : ℚ) + (s : ℚ)) / 2 - ((w : ℚ) + (s : ℚ)) / 2⟩],
        ⟨[(⟨w, h⟩, ((W / 2 : ℕ) : ℚ), ((H / 2 : ℕ) : ℚ) + (h : ℚ))],
          0 - ((w : ℚ) + (s : ℚ)) / 2⟩,
        ((W / 2 : ℕ) : ℚ) + (w : ℚ) + (s : ℚ),
        ((H / 2 : ℕ) : ℚ) + (h : ℚ), 1⟩ =
      ⟨[⟨[(⟨w, h⟩, ((W / 2 : ℕ) : ℚ), ((H / 2 : ℕ) : ℚ)),
          (⟨w, h⟩, ((W / 2 : ℕ) : ℚ) + (w : ℚ) + (s : ℚ), ((H / 2 : ℕ) : ℚ))],
         0 - ((w : ℚ) + (s : ℚ)) / 2 - ((w : ℚ) + (s : ℚ)) / 2⟩],
        ⟨[(⟨w, h⟩, ((W / 2 : ℕ) : ℚ), ((H / 2 : ℕ) : ℚ) + (h : ℚ)),
          (⟨w, h⟩, ((W / 2 : ℕ) : ℚ) + (w : ℚ) + (s : ℚ),
            ((H / 2 : ℕ) : ℚ) + (h : ℚ))],
          0 - ((w : ℚ) + (s : ℚ)) / 2 - ((w : ℚ) + 0) / 2⟩,
        ((W / 2 : ℕ) : ℚ) + (w : ℚ) + (s : ℚ) + (w : ℚ) + (s : ℚ),
        ((H / 2 : ℕ) : ℚ) + (h : ℚ), 1⟩ :=
    (pack_step_noflush _ _ _ _ _ _ _ (by
      show ¬(((W / 2 : ℕ) : ℚ) + (w : ℚ) + (s : ℚ) + (w : ℚ) / 2 +
        (0 - ((w : ℚ) + (s : ℚ)) / 2) ≥ (W : ℚ))
      simp only [ge_iff_le, not_le]
      linarith)).trans rfl
  have hp1 : (if (1 : ℕ) = 0 then ((0 : ℚ), (0 : ℚ))
      else (((W / 2 : ℕ) : ℚ), ((H / 2 : ℕ) : ℚ))).1 = ((W / 2 : ℕ) : ℚ) := rfl
  have hp2 : (if (1 : ℕ) = 0 then ((0 : ℚ), (0 : ℚ))
      else (((W / 2 : ℕ) : ℚ), ((H / 2 : ℕ) : ℚ))).2 = ((H / 2 : ℕ) : ℚ) := rfl
  simp only [render_text_single_line, pack_words, List.isEmpty_cons,
    List.isEmpty_nil, pytrunc_natCast_div_two, Int.cast_natCast, hp1, hp2]
  rw [e1, e2, e3, e4]
  rfl

/-- C4 witness: surface width 25 with word width 10 and space width 2
(`2*10+2 = 22 < 25 < 34 = 3*10+2*2`): four equal words pack into exactly 2
lines. -/
theorem render_text_four_words_two_lines_witness :
    2 * 10 + 2 < 25 ∧ 25 < 3 * 10 + 2 * 2 ∧
    (render_text_single_line 25 40 2 1
      [⟨10, 12⟩, ⟨10, 12⟩, ⟨10, 12⟩, ⟨10, 12⟩]).1.length = 2 :=
  ⟨by decide, by decide,
    render_text_four_words_two_lines 25 40 2 10 12 (by decide) (by decide)⟩
